import Mathlib

/-!
Shallow embedding of the autojob client core: the WebSocket transport client
(`SocketService` in the source), its handler registry, the notification
poller hook (`useNotificationPoller`), and the job store reconciler
(`useJobStore.updateJobStatus`).  Ghost fields (`presented`, `insertionLog`,
`truncated`, `emitted`, `scheduled`, `sent`, `warnings`) record observable
history and never influence control flow.
-/

namespace AutoJob

set_option maxRecDepth 10000

/-! Notification poller (src/frontend/src/hooks/useNotificationPoller.ts) -/

inductive Priority
  | low
  | normal
  | high
  | urgent
deriving DecidableEq

/-- The `SystemNotification` record, restricted to the fields the poller reads. -/
structure SystemNotification where
  type : String
  title : String
  message : String
  job_id : Option String
  priority : Priority
  created_at : String
deriving DecidableEq

/-- The identifying triple the spec's dedup key is derived from. -/
def triple (n : SystemNotification) : String × String × Option String :=
  (n.type, n.created_at, n.job_id)

/-- Dedup key: the template literal in `showNotification`,
with `notification.job_id || ''` mapping a missing or empty id to `""`. -/
def notificationKey (n : SystemNotification) : String :=
  n.type ++ "-" ++ n.created_at ++ "-" ++
    (match n.job_id with
     | none => ""
     | some j => if j = "" then "" else j)

/-- Whether the `switch (notification.priority)` in `showNotification`
renders a toast (`low` falls through to the empty default branch). -/
def rendersToast (n : SystemNotification) : Bool :=
  match n.priority with
  | .urgent => true
  | .high => true
  | .normal => true
  | .low => false

/-- Poller state.  `shownNotifications` is the seen-set, kept in insertion
order exactly as a JS `Set` iterates it.  `presented`, `insertionLog` and
`truncated` are ghost history. -/
structure PollerState where
  shownNotifications : List String
  lastSeen : Option String
  presented : List SystemNotification
  insertionLog : List String
  truncated : Bool
deriving DecidableEq

def initPoller : PollerState :=
  { shownNotifications := []
    lastSeen := none
    presented := []
    insertionLog := []
    truncated := false }

/-- Function `showNotification`: skip if the key is already in the seen-set, else
insert, truncate to the last 50 keys if the set exceeds 100 entries
(`Array.from(set).slice(-50)`), then render according to priority. -/
def showNotification (st : PollerState) (n : SystemNotification) : PollerState :=
  let key := notificationKey n
  if key ∈ st.shownNotifications then st
  else
    let seen1 := st.shownNotifications ++ [key]
    let pres := if rendersToast n then st.presented ++ [n] else st.presented
    if seen1.length > 100 then
      { shownNotifications := seen1.drop (seen1.length - 50)
        lastSeen := st.lastSeen
        presented := pres
        insertionLog := st.insertionLog ++ [key]
        truncated := true }
    else
      { shownNotifications := seen1
        lastSeen := st.lastSeen
        presented := pres
        insertionLog := st.insertionLog ++ [key]
        truncated := st.truncated }

/-- One iteration of the `for` loop in `pollNotifications`: only `high` and
`urgent` priorities reach `showNotification`. -/
def tickStep (st : PollerState) (n : SystemNotification) : PollerState :=
  if n.priority = .high ∨ n.priority = .urgent then showNotification st n else st

/-- Function `pollNotifications` on one fetched response: when non-empty, run the
loop and then set `lastSeenRef` to the first notification's timestamp. -/
def pollTick (st : PollerState) (ns : List SystemNotification) : PollerState :=
  match ns with
  | [] => st
  | first :: _ =>
    let st1 := ns.foldl tickStep st
    { st1 with lastSeen := some first.created_at }

/-- A whole run of the poller over a sequence of fetched responses. -/
def runTicks (ticks : List (List SystemNotification)) : PollerState :=
  ticks.foldl pollTick initPoller

/-- Number of presented alerts whose identifying triple is `tr`. -/
def presentedCount (st : PollerState) (tr : String × String × Option String) : Nat :=
  st.presented.countP (fun n => decide (triple n = tr))

/-- Claim C2 as stated: across any sequence of poll ticks, at most one
alert is presented per (type, created_at, job_id) triple. -/
def claimC2 : Prop :=
  ∀ ticks tr, presentedCount (runTicks ticks) tr ≤ 1

/-- A high-priority notification with the given type, timestamp and job id. -/
def mkHigh (t ca : String) (j : Option String) : SystemNotification :=
  { type := t, title := "t", message := "m", job_id := j
    priority := .high, created_at := ca }

/-- The notification presented twice in the C2 counterexample. -/
def dupNotif : SystemNotification := mkHigh "error" "T" none

/-- Pairwise-distinct filler notifications used to overflow the seen-set. -/
def fillerNotif (i : Nat) : SystemNotification :=
  mkHigh "error" ("D" ++ toString i) none

/-- Five poll ticks of 20 distinct high-priority notifications each. -/
def fillTicks : List (List SystemNotification) :=
  (List.range 5).map (fun c => (List.range 20).map (fun i => fillerNotif (20 * c + i)))

/-- Tick sequence refuting C2: present `dupNotif`, overflow the seen-set so
truncation evicts its key, then fetch `dupNotif` again. -/
def ceTicksC2 : List (List SystemNotification) :=
  [[dupNotif]] ++ fillTicks ++ [[dupNotif]]

/-- Invariant of the poller state: the seen-set is bounded by 100, is a
suffix of the insertion history, and — as long as no truncation has
happened — presented alerts have pairwise-distinct keys, all of which are
still in the seen-set. -/
def PollerInv (st : PollerState) : Prop :=
  st.shownNotifications.length ≤ 100 ∧
  st.shownNotifications <:+ st.insertionLog ∧
  (st.truncated = false →
    (st.presented.map notificationKey).Nodup ∧
    ∀ n ∈ st.presented, notificationKey n ∈ st.shownNotifications)

/-- The two notifications of the C6 scenario tick. -/
def scenarioHighError : SystemNotification := mkHigh "error" "T1" none

def scenarioNormalInfo : SystemNotification :=
  { type := "info", title := "t", message := "m", job_id := none
    priority := Priority.normal, created_at := "T2" }

/-- C10: distinct triples with a missing versus an empty job id. -/
def dupJobEmpty : SystemNotification := mkHigh "error" "T" (some "")

/-- C10: a dash inside the type field makes joined keys collide. -/
def dashA : SystemNotification := mkHigh "x-y" "z" none

def dashB : SystemNotification := mkHigh "x" "y-z" none

/-! Transport client (src/unnamed/part_003, `SocketService`) -/

/-- Lifecycle of one browser `WebSocket` object: `absent` (never created),
`connecting` (constructed, no event fired yet), `opened` (its open event
fired), `closeReq` (`close()` was called, close event still pending),
`closedFired` (its close event has fired). -/
inductive SockSt
  | absent
  | connecting
  | opened
  | closeReq
  | closedFired
deriving DecidableEq

/-- State of the `SocketService` singleton plus the sockets it created.
`emitted`, `scheduled`, `sent` and `warnings` are ghost history:
tags emitted via `emit`, count of reconnects passed to `setTimeout`,
frames written to the wire, and `console.warn` calls in `send`. -/
structure Svc where
  sockets : Nat → SockSt
  nextId : Nat
  ws : Option Nat
  reconnectAttempts : Nat
  isConnecting : Bool
  pendingTimers : Nat
  emitted : List String
  scheduled : Nat
  sent : List (List (String × String))
  warnings : Nat

def maxReconnectAttempts : Nat := 5

def reconnectDelay : Nat := 3000

/-- Computes `this.ws?.readyState === WebSocket.OPEN`. -/
def wsOpen (s : Svc) : Bool :=
  match s.ws with
  | some sid => s.sockets sid == SockSt.opened
  | none => false

/-- Method `connect()`: no-op when already open or connecting; otherwise mark
connecting and construct a fresh socket, storing it in `this.ws`. -/
def connectFn (s : Svc) : Svc :=
  if wsOpen s || s.isConnecting then s
  else
    { s with
      isConnecting := true
      sockets := fun i => if i = s.nextId then SockSt.connecting else s.sockets i
      nextId := s.nextId + 1
      ws := some s.nextId }

/-- Method `disconnect()`: runs `this.ws.close(); this.ws = null` when a socket is
held; calling `close()` requests the close event but does not cancel any
pending reconnect timer. -/
def disconnectFn (s : Svc) : Svc :=
  match s.ws with
  | some sid =>
    { s with
      sockets := fun i =>
        if i = sid then
          match s.sockets sid with
          | SockSt.connecting => SockSt.closeReq
          | SockSt.opened => SockSt.closeReq
          | st => st
        else s.sockets i
      ws := none }
  | none => s

/-- The `onopen` closure of socket `sid`: it mutates the service fields it
captured regardless of whether `this.ws` still points at `sid`. -/
def openHandler (s : Svc) (sid : Nat) : Svc :=
  { s with
    sockets := fun i => if i = sid then SockSt.opened else s.sockets i
    isConnecting := false
    reconnectAttempts := 0
    emitted := s.emitted ++ ["connected"] }

/-- The `onclose` closure of socket `sid`: clears `isConnecting` and
`this.ws`, emits "disconnected", and — when the attempt counter is below
the maximum — increments it and schedules a reconnect timer. -/
def closeHandler (s : Svc) (sid : Nat) : Svc :=
  { s with
    sockets := fun i => if i = sid then SockSt.closedFired else s.sockets i
    isConnecting := false
    ws := none
    emitted := s.emitted ++ ["disconnected"]
    reconnectAttempts :=
      if s.reconnectAttempts < maxReconnectAttempts then s.reconnectAttempts + 1
      else s.reconnectAttempts
    pendingTimers :=
      if s.reconnectAttempts < maxReconnectAttempts then s.pendingTimers + 1
      else s.pendingTimers
    scheduled :=
      if s.reconnectAttempts < maxReconnectAttempts then s.scheduled + 1
      else s.scheduled }

/-- External calls, socket events and reconnect-timer callbacks, all
running on the single cooperative execution queue. -/
inductive Ev
  | connect
  | disconnect
  | openEv (sid : Nat)
  | closeEv (sid : Nat)
  | timer
deriving DecidableEq

/-- Which events the browser may deliver in a given state: an open event
needs a socket still connecting, a close event needs a socket that has not
yet fired close, a timer callback needs a pending reconnect timer. -/
def enabled (s : Svc) : Ev → Bool
  | Ev.connect => true
  | Ev.disconnect => true
  | Ev.openEv sid => s.sockets sid == SockSt.connecting
  | Ev.closeEv sid =>
    s.sockets sid == SockSt.connecting || s.sockets sid == SockSt.opened ||
      s.sockets sid == SockSt.closeReq
  | Ev.timer => decide (0 < s.pendingTimers)

/-- One step of the event machine; events that are not enabled in the
current state do nothing. -/
def step (s : Svc) (e : Ev) : Svc :=
  if enabled s e then
    match e with
    | Ev.connect => connectFn s
    | Ev.disconnect => disconnectFn s
    | Ev.openEv sid => openHandler s sid
    | Ev.closeEv sid => closeHandler s sid
    | Ev.timer => connectFn { s with pendingTimers := s.pendingTimers - 1 }
  else s

def runEvents (s : Svc) (evs : List Ev) : Svc := evs.foldl step s

/-- Module-load state of the singleton service. -/
def initSvc : Svc :=
  { sockets := fun _ => SockSt.absent
    nextId := 0
    ws := none
    reconnectAttempts := 0
    isConnecting := false
    pendingTimers := 0
    emitted := []
    scheduled := 0
    sent := []
    warnings := 0 }

/-- Method `send(type, payload)`: writes the type-tagged frame when the socket is
open, otherwise logs a warning and drops the message. -/
def sendFn (s : Svc) (tag : String) (payload : List (String × String)) : Svc :=
  if wsOpen s then { s with sent := s.sent ++ [("type", tag) :: payload] }
  else { s with warnings := s.warnings + 1 }

/-- The `isConnected` getter. -/
def isConnected (s : Svc) : Bool := wsOpen s

/-- Scanner for the alternation property over the emitted-tag trace:
`some false` = last report was Disconnected (or none yet), `some true` =
last report was Connected, `none` = "connected" was seen twice without an
intervening "disconnected". -/
def altStep : Option Bool → String → Option Bool
  | none, _ => none
  | some f, e =>
    if e = "connected" then (if f then none else some true)
    else if e = "disconnected" then some false
    else some f

def altScan (l : List String) : Option Bool := l.foldl altStep (some false)

def alternationOk (l : List String) : Bool := (altScan l).isSome

/-- Claim C5 as stated: over every event interleaving, "connected" is
never emitted twice without an intervening "disconnected". -/
def claimC5 : Prop :=
  ∀ evs, alternationOk ((runEvents initSvc evs).emitted) = true

/-- Claim C1 as stated: once `disconnect()` returns, no automatic
reconnect is scheduled by any later events that contain no external
`connect()` call. -/
def claimC1 : Prop :=
  ∀ pre evs, Ev.connect ∉ evs →
    (runEvents (disconnectFn (runEvents initSvc pre)) evs).scheduled =
      (disconnectFn (runEvents initSvc pre)).scheduled

/-- Event trace refuting C5: open a first socket, `disconnect()`, then
reconnect and open a second socket before the first socket's close event
has been delivered. -/
def ceTraceC5 : List Ev :=
  [Ev.connect, Ev.openEv 0, Ev.disconnect, Ev.connect, Ev.openEv 1]

/-- Five close events, each followed by its reconnect timer firing. -/
def fiveCloseTrace : List Ev :=
  [Ev.connect, Ev.closeEv 0, Ev.timer, Ev.closeEv 1, Ev.timer, Ev.closeEv 2,
    Ev.timer, Ev.closeEv 3, Ev.timer, Ev.closeEv 4, Ev.timer]

/-- The same run followed by a sixth close event. -/
def sixCloseTrace : List Ev := fiveCloseTrace ++ [Ev.closeEv 5]

/-- A socket that is still live on the wire: created and close not yet
fired, excluding the pending-close state (which only `disconnect()`
produces). -/
def ActiveSock (st : SockSt) : Prop :=
  st = SockSt.connecting ∨ st = SockSt.opened

/-- Invariant of every `disconnect()`-free run: socket ids below `nextId`,
no pending `close()` requests, at most one live socket, the live socket is
the one held in `this.ws` with `isConnecting` matching its phase, and the
emitted trace alternates with "connected" current only while an open
socket is held. -/
def SvcInv (s : Svc) : Prop :=
  (∀ sid, s.nextId ≤ sid → s.sockets sid = SockSt.absent) ∧
  (∀ sid, s.sockets sid ≠ SockSt.closeReq) ∧
  (∀ sid sid', ActiveSock (s.sockets sid) → ActiveSock (s.sockets sid') → sid = sid') ∧
  (∀ sid, s.sockets sid = SockSt.connecting → s.ws = some sid ∧ s.isConnecting = true) ∧
  (∀ sid, s.sockets sid = SockSt.opened → s.ws = some sid ∧ s.isConnecting = false) ∧
  (∃ f, altScan s.emitted = some f ∧
    (f = true → ∃ sid, s.ws = some sid ∧ s.sockets sid = SockSt.opened))

/-- No socket has ever reached the open state. -/
def NoOpenSock (s : Svc) : Prop := ∀ sid, s.sockets sid ≠ SockSt.opened

/-- Potential bounding future reconnect schedules: the count so far plus
the attempts still allowed before the cap. -/
def schedPotential (s : Svc) : Nat :=
  s.scheduled + (maxReconnectAttempts - s.reconnectAttempts)

/-- Prefix for the C1 counterexample: a connection is established, so
`disconnect()` closes a live socket whose close event is still pending. -/
def ceC1Pre : List Ev := [Ev.connect, Ev.openEv 0]

/-- A `disconnect()`-free trace whose emissions alternate. -/
def goodTraceC5 : List Ev :=
  [Ev.connect, Ev.openEv 0, Ev.closeEv 0, Ev.timer, Ev.openEv 1]

/-! Event registry (`SocketService.on` and `SocketService.emit`) -/

/-- Per-tag handler registry; handlers are identified by `Nat` ids.  A JS
`Set` iterates in insertion order without duplicates, so each tag maps to
a duplicate-free list in registration order. -/
def HandlerMap : Type := String → List Nat

def emptyHandlers : HandlerMap := fun _ => []

/-- Method `on(type, handler)`: create the set for the tag if missing, then `add`. -/
def onFn (m : HandlerMap) (tag : String) (h : Nat) : HandlerMap :=
  fun t => if t = tag then (if h ∈ m tag then m tag else m tag ++ [h]) else m t

/-- The registry obtained from a sequence of `on` registrations. -/
def buildReg (regs : List (String × Nat)) : HandlerMap :=
  regs.foldl (fun m r => onFn m r.1 r.2) emptyHandlers

/-- Method `emit(type, data)`: handlers under the own tag of the event, in order, then
the wildcard "message" handlers unless the event is itself "message". -/
def emitOrder (m : HandlerMap) (tag : String) : List Nat :=
  m tag ++ (if tag = "message" then [] else m "message")

/-- Models `Set.add` on the insertion-ordered list view. -/
def insertNew (acc : List Nat) (h : Nat) : List Nat :=
  if h ∈ acc then acc else acc ++ [h]

/-- First occurrence of each element, in order of first registration. -/
def firstOccur (l : List Nat) : List Nat := l.foldl insertNew []

/-- Spec-side characterization: the handlers registered under `tag`, in
registration order, first registration winning. -/
def registeredUnder (regs : List (String × Nat)) (tag : String) : List Nat :=
  firstOccur ((regs.filter (fun r => r.1 == tag)).map Prod.snd)

/-! Job store reconciler (src/frontend/src/stores/profileStore.ts) -/

/-- The `Job` entity of the frontend type declarations. -/
structure Job where
  id : String
  profile_id : String
  url : String
  url_hash : String
  company_name : Option String
  job_title : Option String
  location : Option String
  salary_range : Option String
  status : String
  error_message : Option String
  confirmation_reference : Option String
  retry_count : Nat
  max_retries : Nat
  priority : Nat
  metadata : Option (List (String × String))
  created_at : String
  updated_at : String
  started_at : Option String
  applied_at : Option String
deriving DecidableEq

/-- The slice of `useJobStore` state touched by `updateJobStatus`. -/
structure JobStoreState where
  jobs : List Job
  selectedJob : Option Job
deriving DecidableEq

/-- The spread update replacing only the status field. -/
def setStatus (j : Job) (status : String) : Job := { j with status := status }

/-- Action `updateJobStatus(id, status)` from the WebSocket section of the job store. -/
def updateJobStatus (st : JobStoreState) (id status : String) : JobStoreState :=
  { jobs := st.jobs.map (fun j => if j.id = id then setStatus j status else j)
    selectedJob :=
      match st.selectedJob with
      | some sel => if sel.id = id then some (setStatus sel status) else some sel
      | none => none }

/-- A job record with the given id and status and fixed other fields. -/
def mkJob (id status : String) : Job :=
  { id := id, profile_id := "p", url := "u", url_hash := "h"
    company_name := some "acme", job_title := some "dev", location := none
    salary_range := none, status := status, error_message := none
    confirmation_reference := none, retry_count := 0, max_retries := 3
    priority := 0, metadata := none, created_at := "c", updated_at := "u"
    started_at := none, applied_at := none }

/-- Store contents for the C9 witness: two jobs and a selected job. -/
def wJobs : JobStoreState :=
  { jobs := [mkJob "J1" "pending", mkJob "J2" "applied"]
    selectedJob := some (mkJob "J1" "pending") }

theorem suffix_append_singleton {α : Type} {l1 l2 : List α} (a : α)
    (h : l1 <:+ l2) : l1 ++ [a] <:+ l2 ++ [a] := by
  obtain ⟨w, hw⟩ := h
  exact ⟨w, by rw [← List.append_assoc, hw]⟩

theorem eq_of_suffix_of_suffix_of_length {α : Type} {l1 l2 l : List α}
    (h1 : l1 <:+ l) (h2 : l2 <:+ l) (h : l1.length = l2.length) : l1 = l2 := by
  obtain ⟨w1, hw1⟩ := h1
  obtain ⟨w2, hw2⟩ := h2
  have heq : w1 ++ l1 = w2 ++ l2 := hw1.trans hw2.symm
  have hlw : w1.length = w2.length := by
    have := congrArg List.length heq
    simp only [List.length_append] at this
    omega
  exact (List.append_inj heq hlw).2

theorem pollerInv_show (st : PollerState) (n : SystemNotification)
    (h : PollerInv st) : PollerInv (showNotification st n) := by
  obtain ⟨hlen, hsuf, hpres⟩ := h
  by_cases hmem : notificationKey n ∈ st.shownNotifications
  · simpa [showNotification, hmem] using ⟨hlen, hsuf, hpres⟩
  · have hsuf1 : st.shownNotifications ++ [notificationKey n] <:+
        st.insertionLog ++ [notificationKey n] :=
      suffix_append_singleton _ hsuf
    by_cases hbig : (st.shownNotifications ++ [notificationKey n]).length > 100
    · refine ⟨?_, ?_, ?_⟩ <;> simp only [showNotification, hmem, if_false, hbig, if_true,
        ite_true, ite_false, reduceIte]
      · simp only [List.length_drop]
        omega
      · exact (List.drop_suffix _ _).trans hsuf1
      · intro hfalse
        simp at hfalse
    · refine ⟨?_, ?_, ?_⟩ <;> simp only [showNotification, hmem, if_false, hbig, if_true,
        ite_true, ite_false, reduceIte]
      · simp only [List.length_append, List.length_singleton] at hbig ⊢
        omega
      · exact hsuf1
      · intro htr
        obtain ⟨hnd, hsub⟩ := hpres htr
        have hkn : notificationKey n ∉ st.presented.map notificationKey := by
          intro hk
          obtain ⟨m, hm, he⟩ := List.mem_map.mp hk
          exact hmem (he ▸ hsub m hm)
        constructor
        · by_cases hrt : rendersToast n
          · simp only [hrt, if_true, ite_true, List.map_append, List.map_cons, List.map_nil]
            simp [List.nodup_append, hnd, hkn]
          · simpa [hrt] using hnd
        · intro m hm
          by_cases hrt : rendersToast n
          · simp only [hrt, if_true, ite_true] at hm
            rcases List.mem_append.mp hm with hold | hnew
            · exact List.mem_append_left _ (hsub m hold)
            · simp only [List.mem_singleton] at hnew
              subst hnew
              exact List.mem_append_right _ (List.mem_singleton_self _)
          · simp only [hrt, if_false, ite_false] at hm
            exact List.mem_append_left _ (hsub m hm)

theorem pollerInv_tickStep (st : PollerState) (n : SystemNotification)
    (h : PollerInv st) : PollerInv (tickStep st n) := by
  unfold tickStep
  split
  · exact pollerInv_show st n h
  · exact h

theorem pollerInv_foldl (ns : List SystemNotification) :
    ∀ st, PollerInv st → PollerInv (ns.foldl tickStep st) := by
  induction ns with
  | nil => exact fun st h => h
  | cons a ns ih =>
    intro st h
    exact ih _ (pollerInv_tickStep st a h)

theorem pollerInv_pollTick (st : PollerState) (ns : List SystemNotification)
    (h : PollerInv st) : PollerInv (pollTick st ns) := by
  unfold pollTick
  match ns with
  | [] => exact h
  | first :: rest =>
    exact pollerInv_foldl (first :: rest) st h

theorem pollerInv_init : PollerInv initPoller := by
  refine ⟨by simp [initPoller], ?_, by simp [initPoller]⟩
  simp [initPoller]

theorem pollerInv_runTicks (ticks : List (List SystemNotification)) :
    PollerInv (runTicks ticks) := by
  unfold runTicks
  have h : ∀ ts st, PollerInv st → PollerInv (List.foldl pollTick st ts) := by
    intro ts
    induction ts with
    | nil => exact fun st h => h
    | cons a ts ih => exact fun st h => ih _ (pollerInv_pollTick st a h)
  exact h ticks initPoller pollerInv_init

theorem key_eq_of_triple_eq {m n : SystemNotification}
    (h : triple m = triple n) : notificationKey m = notificationKey n := by
  unfold triple at h
  simp only [Prod.mk.injEq] at h
  obtain ⟨h1, h2, h3⟩ := h
  unfold notificationKey
  rw [h1, h2, h3]

theorem countP_triple_le_one (l : List SystemNotification)
    (h : (l.map notificationKey).Nodup) (tr : String × String × Option String) :
    l.countP (fun n => decide (triple n = tr)) ≤ 1 := by
  induction l with
  | nil => simp
  | cons a l ih =>
    simp only [List.map_cons, List.nodup_cons] at h
    obtain ⟨ha, h2⟩ := h
    rw [List.countP_cons]
    by_cases hta : triple a = tr
    · have hz : l.countP (fun n => decide (triple n = tr)) = 0 := by
        rw [List.countP_eq_zero]
        intro b hb hpb
        have htb : triple b = tr := of_decide_eq_true hpb
        have : notificationKey b = notificationKey a :=
          key_eq_of_triple_eq (htb.trans hta.symm)
        exact ha (this ▸ List.mem_map_of_mem notificationKey hb)
      simp [hz, hta]
    · simp only [hta, decide_False, if_false, ite_false, add_zero, reduceIte]
      exact ih h2

/-- C6: the poller filters by priority before the dedup check: the poll
loop equals folding `showNotification` over the high/urgent notifications
only; a `normal` or `low` notification leaves the poller state untouched
(no seen-set lookup, no insertion, no alert), whatever its type; and in
the scenario tick (high/error then normal/info) only the first is
presented and only the first causes a seen-set insertion. -/
theorem c6_priority_filter :
    (∀ (st : PollerState) (ns : List SystemNotification), ns.foldl tickStep st =
      (ns.filter (fun n => n.priority == Priority.high ||
        n.priority == Priority.urgent)).foldl showNotification st) ∧
    (∀ (st : PollerState) (n : SystemNotification),
      n.priority = Priority.normal ∨ n.priority = Priority.low →
      tickStep st n = st) ∧
    ((pollTick initPoller [scenarioHighError, scenarioNormalInfo]).presented =
        [scenarioHighError] ∧
      (pollTick initPoller [scenarioHighError, scenarioNormalInfo]).shownNotifications =
        [notificationKey scenarioHighError] ∧
      (pollTick initPoller [scenarioHighError, scenarioNormalInfo]).insertionLog =
        [notificationKey scenarioHighError]) := by
  refine ⟨?_, ?_, by decide, by decide, by decide⟩
  · intro st ns
    induction ns generalizing st with
    | nil => rfl
    | cons a ns ih =>
      by_cases h : a.priority = Priority.high ∨ a.priority = Priority.urgent
      · have hb : (a.priority == Priority.high || a.priority == Priority.urgent) = true := by
          rcases h with h | h <;> simp [h]
        simp only [List.foldl_cons, List.filter_cons, hb, if_true, ite_true]
        rw [show tickStep st a = showNotification st a by simp [tickStep, h]]
        exact ih _
      · have hb : (a.priority == Priority.high || a.priority == Priority.urgent) = false := by
          rcases ha : a.priority <;> simp_all
        simp only [List.foldl_cons, List.filter_cons, hb, Bool.false_eq_true, if_false, ite_false]
        rw [show tickStep st a = st by simp [tickStep, h]]
        exact ih _
  · intro st n h
    rcases h with h | h <;> simp [tickStep, h]

theorem c6_priority_filter_witness :
    (scenarioNormalInfo.priority = Priority.normal ∨
      scenarioNormalInfo.priority = Priority.low) ∧
    tickStep initPoller scenarioNormalInfo = initPoller :=
  ⟨Or.inl rfl, c6_priority_filter.2.1 initPoller scenarioNormalInfo (Or.inl rfl)⟩

/-- C10: the dedup key is not injective on (type, created_at, job_id):
a missing job id and an empty-string job id collide, as do fields whose
dash-joined concatenations coincide; consequently `dupJobEmpty`, distinct
from the already-seen `dupNotif`, is silently never presented. -/
theorem c10_key_not_injective :
    (triple dupNotif ≠ triple dupJobEmpty ∧
      notificationKey dupNotif = notificationKey dupJobEmpty) ∧
    (triple dashA ≠ triple dashB ∧
      notificationKey dashA = notificationKey dashB) ∧
    (runTicks [[dupNotif], [dupJobEmpty]]).presented = [dupNotif] := by
  refine ⟨⟨by decide, by decide⟩, ⟨by decide, by decide⟩, by decide⟩

/-- C9: `updateJobStatus id status` rewrites exactly the status field of
the jobs whose id matches, leaves each of their other fields unchanged,
and leaves every other job (and a non-matching selected job) untouched,
for any status value and any prior store contents. -/
theorem c9_update_job_status (st : JobStoreState) (id status : String) :
    ((updateJobStatus st id status).jobs.length = st.jobs.length) ∧
    (∀ i j, st.jobs.get? i = some j → j.id ≠ id →
      (updateJobStatus st id status).jobs.get? i = some j) ∧
    (∀ i j, st.jobs.get? i = some j → j.id = id →
      (updateJobStatus st id status).jobs.get? i = some (setStatus j status)) ∧
    (∀ j : Job, (setStatus j status).status = status ∧
      (setStatus j status).id = j.id ∧
      (setStatus j status).profile_id = j.profile_id ∧
      (setStatus j status).url = j.url ∧
      (setStatus j status).url_hash = j.url_hash ∧
      (setStatus j status).company_name = j.company_name ∧
      (setStatus j status).job_title = j.job_title ∧
      (setStatus j status).location = j.location ∧
      (setStatus j status).salary_range = j.salary_range ∧
      (setStatus j status).error_message = j.error_message ∧
      (setStatus j status).confirmation_reference = j.confirmation_reference ∧
      (setStatus j status).retry_count = j.retry_count ∧
      (setStatus j status).max_retries = j.max_retries ∧
      (setStatus j status).priority = j.priority ∧
      (setStatus j status).metadata = j.metadata ∧
      (setStatus j status).created_at = j.created_at ∧
      (setStatus j status).updated_at = j.updated_at ∧
      (setStatus j status).started_at = j.started_at ∧
      (setStatus j status).applied_at = j.applied_at) ∧
    (∀ sel, st.selectedJob = some sel → sel.id = id →
      (updateJobStatus st id status).selectedJob = some (setStatus sel status)) ∧
    (∀ sel, st.selectedJob = some sel → sel.id ≠ id →
      (updateJobStatus st id status).selectedJob = some sel) := by
  refine ⟨by simp [updateJobStatus], ?_, ?_, ?_, ?_, ?_⟩
  · intro i j hj hne
    show ((st.jobs.map fun j => if j.id = id then setStatus j status else j).get? i) = some j
    rw [List.get?_map, hj]
    simp [hne]
  · intro i j hj he
    show ((st.jobs.map fun j => if j.id = id then setStatus j status else j).get? i) =
      some (setStatus j status)
    rw [List.get?_map, hj]
    simp [he]
  · intro j
    simp [setStatus]
  · intro sel hsel he
    simp [updateJobStatus, hsel, he]
  · intro sel hsel hne
    simp [updateJobStatus, hsel, hne]

theorem c9_update_job_status_witness :
    wJobs.jobs.get? 0 = some (mkJob "J1" "pending") ∧
    (mkJob "J2" "applied").id ≠ "J1" ∧
    (updateJobStatus wJobs "J1" "applied").jobs.get? 0 =
      some (setStatus (mkJob "J1" "pending") "applied") ∧
    (updateJobStatus wJobs "J1" "applied").jobs.get? 1 =
      some (mkJob "J2" "applied") := by
  have h := c9_update_job_status wJobs "J1" "applied"
  exact ⟨rfl, by decide,
    h.2.2.1 0 (mkJob "J1" "pending") rfl rfl,
    h.2.1 1 (mkJob "J2" "applied") rfl (by decide)⟩

theorem buildReg_aux (regs : List (String × Nat)) :
    ∀ (m : HandlerMap) (t : String),
      (regs.foldl (fun m r => onFn m r.1 r.2) m) t =
        ((regs.filter (fun r => r.1 == t)).map Prod.snd).foldl insertNew (m t) := by
  induction regs with
  | nil => intro m t; rfl
  | cons a regs ih =>
    intro m t
    by_cases h : a.1 = t
    · have hb : (a.1 == t) = true := by simp [h]
      simp only [List.foldl_cons, List.filter_cons, hb, if_true, ite_true,
        List.map_cons]
      rw [ih]
      have : (onFn m a.1 a.2) t = insertNew (m t) a.2 := by
        unfold onFn insertNew
        rw [if_pos h.symm, h]
      rw [this]
    · have hb : (a.1 == t) = false := by simp [h]
      simp only [List.foldl_cons, List.filter_cons, hb, Bool.false_eq_true,
        if_false, ite_false]
      rw [ih]
      have : (onFn m a.1 a.2) t = m t := by
        unfold onFn
        rw [if_neg (fun hc => h hc.symm)]
      rw [this]

theorem buildReg_eq (regs : List (String × Nat)) (t : String) :
    buildReg regs t = registeredUnder regs t :=
  buildReg_aux regs emptyHandlers t

/-- C8: dispatching an event invokes exactly the handlers registered under
its tag, in registration order (first registration wins, matching `Set`
semantics), followed — unless the event is itself tagged "message" — by
the wildcard "message" handlers in registration order; "message"-tagged
events are not replayed a second time. -/
theorem c8_dispatch_order (regs : List (String × Nat)) (tag : String) :
    emitOrder (buildReg regs) tag =
      registeredUnder regs tag ++
        (if tag = "message" then [] else registeredUnder regs "message") := by
  unfold emitOrder
  by_cases h : tag = "message" <;> simp [h, buildReg_eq]

theorem noOpenSock_connectFn (s : Svc) (h : NoOpenSock s) : NoOpenSock (connectFn s) := by
  unfold connectFn
  split
  · exact h
  · intro sid
    by_cases hs : sid = s.nextId <;> simp [hs, h sid]

theorem noOpenSock_step (s : Svc) (e : Ev) (h : NoOpenSock s)
    (he : ∀ sid, e ≠ Ev.openEv sid) : NoOpenSock (step s e) := by
  unfold step
  by_cases hen : enabled s e = true
  · simp only [hen, if_true, ite_true]
    cases e with
    | connect => exact noOpenSock_connectFn s h
    | disconnect =>
      unfold disconnectFn
      cases hws : s.ws with
      | none => exact h
      | some sid =>
        intro i
        by_cases hi : i = sid
        · subst hi
          simp only
          rcases hsock : s.sockets i <;> simp [hsock, h i]
        · simp [hi, h i]
    | openEv sid => exact absurd rfl (he sid)
    | closeEv sid =>
      show NoOpenSock (closeHandler s sid)
      intro i
      by_cases hi : i = sid <;> simp [closeHandler, hi, h i]
    | timer => exact noOpenSock_connectFn _ h
  · simp only [hen, if_false, ite_false]
    exact h

theorem noOpenSock_run (evs : List Ev) :
    ∀ s, NoOpenSock s → (∀ sid, Ev.openEv sid ∉ evs) →
      NoOpenSock (runEvents s evs) := by
  induction evs with
  | nil => exact fun s h _ => h
  | cons e evs ih =>
    intro s h hno
    have he : ∀ sid, e ≠ Ev.openEv sid := by
      intro sid heq
      exact hno sid (heq ▸ List.mem_cons_self e evs)
    have ht : ∀ sid, Ev.openEv sid ∉ evs := by
      intro sid hm
      exact hno sid (List.mem_cons_of_mem e hm)
    exact ih (step s e) (noOpenSock_step s e h he) ht

theorem isConnected_false_of_noOpen (s : Svc) (h : NoOpenSock s) :
    isConnected s = false := by
  unfold isConnected wsOpen
  cases hws : s.ws with
  | none => rfl
  | some sid => simp [h sid]

/-- C7: `send(tag, payload)` writes exactly the frame `{type: tag,
...payload}` when the connection is open; when it is not, no wire write
happens, one local warning is produced, the rest of the state (hence no
queue) is untouched — and before any successful open event the connection
is never open. -/
theorem c7_send (s : Svc) (tag : String) (payload : List (String × String)) :
    (isConnected s = true →
      sendFn s tag payload = { s with sent := s.sent ++ [("type", tag) :: payload] }) ∧
    (isConnected s = false →
      sendFn s tag payload = { s with warnings := s.warnings + 1 }) ∧
    (∀ pre : List Ev, (∀ sid, Ev.openEv sid ∉ pre) →
      isConnected (runEvents initSvc pre) = false) := by
  refine ⟨?_, ?_, ?_⟩
  · intro h
    simp only [sendFn, isConnected] at *
    rw [if_pos h]
  · intro h
    simp only [sendFn, isConnected] at *
    rw [if_neg (by simp [h])]
  · intro pre hpre
    refine isConnected_false_of_noOpen _ (noOpenSock_run pre initSvc ?_ hpre)
    intro sid
    simp [initSvc]

theorem c7_send_witness :
    isConnected (runEvents initSvc [Ev.connect]) = false ∧
    sendFn (runEvents initSvc [Ev.connect]) "job:resume" [("job_id", "J1")] =
      { runEvents initSvc [Ev.connect] with
        warnings := (runEvents initSvc [Ev.connect]).warnings + 1 } ∧
    (sendFn (runEvents initSvc [Ev.connect]) "job:resume" [("job_id", "J1")]).sent = [] := by
  have h := c7_send (runEvents initSvc [Ev.connect]) "job:resume" [("job_id", "J1")]
  have hco : isConnected (runEvents initSvc [Ev.connect]) = false :=
    h.2.2 [Ev.connect] (by intro sid; simp)
  refine ⟨hco, h.2.1 hco, ?_⟩
  rw [h.2.1 hco]
  decide

theorem connectFn_counters (s : Svc) :
    (connectFn s).scheduled = s.scheduled ∧
    (connectFn s).reconnectAttempts = s.reconnectAttempts := by
  unfold connectFn
  split <;> exact ⟨rfl, rfl⟩

theorem disconnectFn_counters (s : Svc) :
    (disconnectFn s).scheduled = s.scheduled ∧
    (disconnectFn s).reconnectAttempts = s.reconnectAttempts := by
  unfold disconnectFn
  cases hws : s.ws <;> simp

theorem closeHandler_counters (s : Svc) (sid : Nat) :
    ((closeHandler s sid).scheduled = s.scheduled + 1 ∧
      (closeHandler s sid).reconnectAttempts = s.reconnectAttempts + 1 ∧
      s.reconnectAttempts < maxReconnectAttempts) ∨
    ((closeHandler s sid).scheduled = s.scheduled ∧
      (closeHandler s sid).reconnectAttempts = s.reconnectAttempts ∧
      ¬ s.reconnectAttempts < maxReconnectAttempts) := by
  by_cases hlt : s.reconnectAttempts < maxReconnectAttempts
  · exact Or.inl ⟨by simp [closeHandler, hlt], by simp [closeHandler, hlt], hlt⟩
  · exact Or.inr ⟨by simp [closeHandler, hlt], by simp [closeHandler, hlt], hlt⟩

theorem step_no_open_potential (s : Svc) (e : Ev)
    (he : ∀ sid, e ≠ Ev.openEv sid) :
    schedPotential (step s e) ≤ schedPotential s ∧
      s.reconnectAttempts ≤ (step s e).reconnectAttempts := by
  unfold step
  by_cases hen : enabled s e = true
  · simp only [hen, if_true, ite_true]
    cases e with
    | connect =>
      obtain ⟨h1, h2⟩ := connectFn_counters s
      unfold schedPotential
      rw [h1, h2]
      exact ⟨Nat.le_refl _, Nat.le_refl _⟩
    | disconnect =>
      obtain ⟨h1, h2⟩ := disconnectFn_counters s
      unfold schedPotential
      rw [h1, h2]
      exact ⟨Nat.le_refl _, Nat.le_refl _⟩
    | openEv sid => exact absurd rfl (he sid)
    | closeEv sid =>
      have hc := closeHandler_counters s sid
      unfold schedPotential
      unfold maxReconnectAttempts at hc ⊢
      rcases hc with ⟨h1, h2, hlt⟩ | ⟨h1, h2, hlt⟩ <;> rw [h1, h2] <;> omega
    | timer =>
      obtain ⟨h1, h2⟩ := connectFn_counters { s with pendingTimers := s.pendingTimers - 1 }
      unfold schedPotential
      rw [h1, h2]
      exact ⟨Nat.le_refl _, Nat.le_refl _⟩
  · simp only [hen, if_false, ite_false]
    exact ⟨Nat.le_refl _, Nat.le_refl _⟩

theorem run_no_open_potential (evs : List Ev) :
    ∀ s, (∀ sid, Ev.openEv sid ∉ evs) →
      schedPotential (runEvents s evs) ≤ schedPotential s := by
  induction evs with
  | nil => exact fun s _ => Nat.le_refl _
  | cons e evs ih =>
    intro s h
    have he : ∀ sid, e ≠ Ev.openEv sid := by
      intro sid heq
      exact h sid (heq ▸ List.mem_cons_self e evs)
    have ht : ∀ sid, Ev.openEv sid ∉ evs := by
      intro sid hm
      exact h sid (List.mem_cons_of_mem e hm)
    exact Nat.le_trans (ih (step s e) ht) (step_no_open_potential s e he).1

/-- C4: without a successful open, any event run schedules at most
`maxReconnectAttempts` (5) further reconnects beyond the counter already
consumed; six consecutive close events (each reconnect timer firing in
between) produce exactly 5 scheduled attempts, the sixth close scheduling
none; the attempt counter never decreases except on an open event, and a
successful open resets it to zero. -/
theorem c4_reconnect_cap :
    (∀ (s : Svc) (evs : List Ev), (∀ sid, Ev.openEv sid ∉ evs) →
      (runEvents s evs).scheduled ≤
        s.scheduled + (maxReconnectAttempts - s.reconnectAttempts)) ∧
    ((runEvents initSvc fiveCloseTrace).scheduled = 5 ∧
      (runEvents initSvc sixCloseTrace).scheduled = 5 ∧
      (runEvents initSvc sixCloseTrace).reconnectAttempts = 5) ∧
    (∀ (s : Svc) (e : Ev), (∀ sid, e ≠ Ev.openEv sid) →
      s.reconnectAttempts ≤ (step s e).reconnectAttempts) ∧
    (∀ (s : Svc) (sid : Nat), (openHandler s sid).reconnectAttempts = 0) := by
  refine ⟨?_, ⟨by decide, by decide, by decide⟩, ?_, fun s sid => rfl⟩
  · intro s evs h
    have := run_no_open_potential evs s h
    unfold schedPotential at this
    omega
  · intro s e he
    exact (step_no_open_potential s e he).2

theorem c4_reconnect_cap_witness :
    (∀ sid, Ev.openEv sid ∉ sixCloseTrace) ∧
    (runEvents initSvc sixCloseTrace).scheduled ≤
      initSvc.scheduled + (maxReconnectAttempts - initSvc.reconnectAttempts) := by
  have hno : ∀ sid, Ev.openEv sid ∉ sixCloseTrace := by
    intro sid
    simp [sixCloseTrace, fiveCloseTrace]
  exact ⟨hno, c4_reconnect_cap.1 initSvc sixCloseTrace hno⟩

theorem wsOpen_true_of (s : Svc) (sid : Nat) (hw : s.ws = some sid)
    (ho : s.sockets sid = SockSt.opened) : wsOpen s = true := by
  unfold wsOpen
  rw [hw]
  simp [ho]

theorem altScan_append_one (l : List String) (e : String) :
    altScan (l ++ [e]) = altStep (altScan l) e := by
  unfold altScan
  rw [List.foldl_append]
  rfl

theorem svcInv_connectFn (s : Svc) (hinv : SvcInv s) : SvcInv (connectFn s) := by
  obtain ⟨hfresh, hreq, huniq, hconn, hopn, f, halt, himp⟩ := hinv
  by_cases hg : (wsOpen s || s.isConnecting) = true
  · unfold connectFn
    rw [if_pos hg]
    exact ⟨hfresh, hreq, huniq, hconn, hopn, f, halt, himp⟩
  · have hw0 : wsOpen s = false := by
      cases hw : wsOpen s
      · rfl
      · exact absurd (by simp [hw]) hg
    have hic0 : s.isConnecting = false := by
      cases hic : s.isConnecting
      · rfl
      · exact absurd (by simp [hic]) hg
    have hNoActive : ∀ sid, ¬ ActiveSock (s.sockets sid) := by
      intro sid hact
      rcases hact with hc | ho
      · have hc2 := (hconn sid hc).2
        rw [hc2] at hic0
        exact Bool.noConfusion hic0
      · have hw2 := wsOpen_true_of s sid (hopn sid ho).1 ho
        rw [hw2] at hw0
        exact Bool.noConfusion hw0
    unfold connectFn
    rw [if_neg hg]
    have key : ∀ j, ActiveSock (if j = s.nextId then SockSt.connecting else s.sockets j) →
        j = s.nextId := by
      intro j hj
      by_cases hjn : j = s.nextId
      · exact hjn
      · exact absurd (by simpa [hjn] using hj) (hNoActive j)
    refine ⟨?_, ?_, ?_, ?_, ?_, f, halt, ?_⟩
    · intro sid hsid
      have hsid2 : s.nextId + 1 ≤ sid := hsid
      show (if sid = s.nextId then SockSt.connecting else s.sockets sid) = SockSt.absent
      rw [if_neg (by omega)]
      exact hfresh sid (by omega)
    · intro sid
      show (if sid = s.nextId then SockSt.connecting else s.sockets sid) ≠ SockSt.closeReq
      by_cases hs : sid = s.nextId
      · simp [hs]
      · simp only [hs, if_false, ite_false, reduceIte]
        exact hreq sid
    · intro i i' h1 h2
      rw [key i h1, key i' h2]
    · intro sid hc
      by_cases hs : sid = s.nextId
      · subst hs
        exact ⟨rfl, rfl⟩
      · exact absurd (Or.inl (by simpa [hs] using hc)) (hNoActive sid)
    · intro sid ho
      by_cases hs : sid = s.nextId
      · subst hs
        simp at ho
      · exact absurd (Or.inr (by simpa [hs] using ho)) (hNoActive sid)
    · intro hf
      obtain ⟨sid, hw, ho⟩ := himp hf
      have := wsOpen_true_of s sid hw ho
      rw [this] at hw0
      exact Bool.noConfusion hw0

theorem svcInv_openEv (s : Svc) (sid : Nat) (hinv : SvcInv s)
    (hc : s.sockets sid = SockSt.connecting) : SvcInv (openHandler s sid) := by
  obtain ⟨hfresh, hreq, huniq, hconn, hopn, f, halt, himp⟩ := hinv
  obtain ⟨hw, hic⟩ := hconn sid hc
  have hsidlt : sid < s.nextId := by
    by_contra hge
    have habs := hfresh sid (by omega)
    rw [habs] at hc
    exact SockSt.noConfusion hc
  have key : ∀ j, ActiveSock (if j = sid then SockSt.opened else s.sockets j) → j = sid := by
    intro j hj
    by_cases hjs : j = sid
    · exact hjs
    · exact huniq j sid (by simpa [hjs] using hj) (Or.inl hc)
  have hf0 : f = false := by
    cases hfv : f with
    | false => rfl
    | true =>
      obtain ⟨sid', hw', ho'⟩ := himp hfv
      have hss := huniq sid' sid (Or.inr ho') (Or.inl hc)
      rw [hss, hc] at ho'
      exact SockSt.noConfusion ho'
  refine ⟨?_, ?_, ?_, ?_, ?_, true, ?_, ?_⟩
  · intro i hi
    have hi2 : s.nextId ≤ i := hi
    show (if i = sid then SockSt.opened else s.sockets i) = SockSt.absent
    rw [if_neg (by omega)]
    exact hfresh i hi2
  · intro i
    show (if i = sid then SockSt.opened else s.sockets i) ≠ SockSt.closeReq
    by_cases his : i = sid
    · simp [his]
    · simp only [his, if_false, ite_false, reduceIte]
      exact hreq i
  · intro i i' h1 h2
    rw [key i h1, key i' h2]
  · intro i hci
    by_cases his : i = sid
    · subst his
      simp [openHandler] at hci
    · exact absurd (huniq i sid (Or.inl (by simpa [openHandler, his] using hci))
        (Or.inl hc)) his
  · intro i hoi
    by_cases his : i = sid
    · subst his
      exact ⟨hw, rfl⟩
    · exact absurd (huniq i sid (Or.inr (by simpa [openHandler, his] using hoi))
        (Or.inl hc)) his
  · show altScan (s.emitted ++ ["connected"]) = some true
    rw [altScan_append_one, halt, hf0]
    rfl
  · intro _
    exact ⟨sid, hw, by simp [openHandler]⟩

theorem svcInv_closeEv (s : Svc) (sid : Nat) (hinv : SvcInv s)
    (hact : ActiveSock (s.sockets sid)) : SvcInv (closeHandler s sid) := by
  obtain ⟨hfresh, hreq, huniq, hconn, hopn, f, halt, himp⟩ := hinv
  have hsidlt : sid < s.nextId := by
    by_contra hge
    have habs := hfresh sid (by omega)
    rcases hact with hc | ho
    · rw [habs] at hc
      exact SockSt.noConfusion hc
    · rw [habs] at ho
      exact SockSt.noConfusion ho
  have key : ∀ j, ActiveSock ((closeHandler s sid).sockets j) → False := by
    intro j hj
    by_cases hjs : j = sid
    · subst hjs
      rcases hj with hj | hj <;> simp [closeHandler] at hj
    · have hja : ActiveSock (s.sockets j) := by
        simpa [closeHandler, hjs] using hj
      exact hjs (huniq j sid hja hact)
  refine ⟨?_, ?_, ?_, ?_, ?_, false, ?_, ?_⟩
  · intro i hi
    have hi2 : s.nextId ≤ i := hi
    have hne : ¬ i = sid := by omega
    simp only [closeHandler, hne, if_false, ite_false, reduceIte]
    exact hfresh i hi2
  · intro i
    by_cases his : i = sid
    · simp [closeHandler, his]
    · simp only [closeHandler, his, if_false, ite_false, reduceIte]
      exact hreq i
  · intro i i' h1 h2
    exact absurd h1 (fun h => key i h)
  · intro i hci
    exact absurd (Or.inl hci) (fun h => key i h)
  · intro i hoi
    exact absurd (Or.inr hoi) (fun h => key i h)
  · show altScan (s.emitted ++ ["disconnected"]) = some false
    rw [altScan_append_one, halt]
    cases f <;> rfl
  · intro h
    exact absurd h (by decide)

theorem svcInv_step (s : Svc) (e : Ev) (hinv : SvcInv s) (he : e ≠ Ev.disconnect) :
    SvcInv (step s e) := by
  unfold step
  by_cases hen : enabled s e = true
  · rw [if_pos hen]
    cases e with
    | connect => exact svcInv_connectFn s hinv
    | disconnect => exact absurd rfl he
    | openEv sid =>
      have hc : s.sockets sid = SockSt.connecting := by
        simpa [enabled] using hen
      exact svcInv_openEv s sid hinv hc
    | closeEv sid =>
      have hreq : ∀ i, s.sockets i ≠ SockSt.closeReq := hinv.2.1
      have hact : ActiveSock (s.sockets sid) := by
        simp [enabled] at hen
        rcases hen with (h | h) | h
        · exact Or.inl h
        · exact Or.inr h
        · exact absurd h (hreq sid)
      exact svcInv_closeEv s sid hinv hact
    | timer => exact svcInv_connectFn _ hinv
  · rw [if_neg hen]
    exact hinv

theorem svcInv_run (evs : List Ev) :
    ∀ s, SvcInv s → Ev.disconnect ∉ evs → SvcInv (runEvents s evs) := by
  induction evs with
  | nil => exact fun s h _ => h
  | cons e evs ih =>
    intro s hinv h
    have he : e ≠ Ev.disconnect := by
      intro heq
      subst heq
      exact h (List.mem_cons_self _ _)
    have ht : Ev.disconnect ∉ evs := fun hm => h (List.mem_cons_of_mem _ hm)
    exact ih (step s e) (svcInv_step s e hinv he) ht

theorem svcInv_init : SvcInv initSvc := by
  refine ⟨fun sid _ => rfl, fun sid => by simp [initSvc], ?_, ?_, ?_, false, rfl, ?_⟩
  · intro i i' h1 h2
    rcases h1 with h | h <;> simp [initSvc] at h
  · intro sid h
    simp [initSvc] at h
  · intro sid h
    simp [initSvc] at h
  · intro h
    exact absurd h (by decide)

/-- C5 counterexample: in the interleaving `connect; open₀; disconnect();
connect; open₁` the first socket's close event has not yet been delivered
when the second socket opens, so "connected" is emitted twice with no
intervening "disconnected" — the claim fails as stated over all event
sequences. -/
theorem c5_counterexample :
    (runEvents initSvc ceTraceC5).emitted = ["connected", "connected"] ∧
    ¬ claimC5 := by
  have h1 : (runEvents initSvc ceTraceC5).emitted = ["connected", "connected"] := by
    decide
  have h2 : alternationOk ((runEvents initSvc ceTraceC5).emitted) = false := by
    rw [h1]
    decide
  refine ⟨h1, fun hcl => ?_⟩
  rw [hcl ceTraceC5] at h2
  exact Bool.noConfusion h2

/-- C5 (amended): over every event sequence containing no external
`disconnect()` call, "connected" is never emitted twice without an
intervening "disconnected". -/
theorem c5_connected_alternation (evs : List Ev) (h : Ev.disconnect ∉ evs) :
    alternationOk ((runEvents initSvc evs).emitted) = true := by
  obtain ⟨-, -, -, -, -, f, halt, -⟩ := svcInv_run evs initSvc svcInv_init h
  unfold alternationOk
  rw [halt]
  rfl

theorem c5_connected_alternation_witness :
    Ev.disconnect ∉ goodTraceC5 ∧
    alternationOk ((runEvents initSvc goodTraceC5).emitted) = true := by
  have hmem : Ev.disconnect ∉ goodTraceC5 := by simp [goodTraceC5]
  exact ⟨hmem, c5_connected_alternation goodTraceC5 hmem⟩

/-- C1 counterexample: after `connect; open₀; disconnect()` the service
has scheduled nothing, yet the closed socket's own close event — an event
sequence with no external `connect()` — schedules a reconnect, so
`disconnect()` does not suppress automatic reconnection. -/
theorem c1_counterexample :
    (disconnectFn (runEvents initSvc ceC1Pre)).scheduled = 0 ∧
    (runEvents (disconnectFn (runEvents initSvc ceC1Pre)) [Ev.closeEv 0]).scheduled = 1 ∧
    ¬ claimC1 := by
  have h1 : (disconnectFn (runEvents initSvc ceC1Pre)).scheduled = 0 := by decide
  have h2 : (runEvents (disconnectFn (runEvents initSvc ceC1Pre))
      [Ev.closeEv 0]).scheduled = 1 := by decide
  refine ⟨h1, h2, fun hcl => ?_⟩
  have h3 := hcl ceC1Pre [Ev.closeEv 0] (by simp)
  rw [h1, h2] at h3
  omega

/-- C1 (amended): `disconnect()` closes the active connection — it clears
the socket reference and requests `close()` on a live socket — but it does
not suppress automatic reconnection: it cancels no pending reconnect timer,
leaves the attempt counter unchanged, and the close event fired by the
closed socket still schedules a reconnect while the counter is below the
maximum. -/
theorem c1_disconnect_amended :
    (∀ s : Svc, (disconnectFn s).ws = none) ∧
    (∀ (s : Svc) (sid : Nat), s.ws = some sid → ActiveSock (s.sockets sid) →
      (disconnectFn s).sockets sid = SockSt.closeReq) ∧
    (∀ s : Svc, (disconnectFn s).pendingTimers = s.pendingTimers ∧
      (disconnectFn s).reconnectAttempts = s.reconnectAttempts ∧
      (disconnectFn s).scheduled = s.scheduled) ∧
    (step (disconnectFn (runEvents initSvc ceC1Pre)) (Ev.closeEv 0)).scheduled = 1 := by
  refine ⟨?_, ?_, ?_, by decide⟩
  · intro s
    cases hws : s.ws <;> simp [disconnectFn, hws]
  · intro s sid hw hact
    rcases hact with hc | hc <;> simp [disconnectFn, hw, hc]
  · intro s
    cases hws : s.ws <;> simp [disconnectFn, hws]

theorem c1_disconnect_amended_witness :
    (runEvents initSvc ceC1Pre).ws = some 0 ∧
    ActiveSock ((runEvents initSvc ceC1Pre).sockets 0) ∧
    (disconnectFn (runEvents initSvc ceC1Pre)).sockets 0 = SockSt.closeReq := by
  have hw : (runEvents initSvc ceC1Pre).ws = some 0 := by decide
  have ha : ActiveSock ((runEvents initSvc ceC1Pre).sockets 0) := by
    exact Or.inr (by decide)
  exact ⟨hw, ha, c1_disconnect_amended.2.1 _ 0 hw ha⟩

/-- C2 counterexample: presenting `dupNotif`, then 100 distinct
high-priority notifications (overflowing the seen-set so truncation evicts
`dupNotif`'s key), then fetching `dupNotif` again presents two alerts for
one (type, created_at, job_id) triple — the claim fails as stated. -/
theorem c2_dedup_counterexample :
    presentedCount (runTicks ceTicksC2) ("error", "T", none) = 2 ∧ ¬ claimC2 := by
  have h2 : presentedCount (runTicks ceTicksC2) ("error", "T", none) = 2 := by decide
  refine ⟨h2, fun hcl => ?_⟩
  have h3 := hcl ceTicksC2 ("error", "T", none)
  rw [h2] at h3
  omega

/-- C2 (amended): across any sequence of poll ticks during which the
seen-set is never truncated, at most one alert is presented per
(type, created_at, job_id) triple; truncation can evict a presented key
and allow the same notification to be presented again. -/
theorem c2_dedup_bounded (ticks : List (List SystemNotification))
    (tr : String × String × Option String)
    (h : (runTicks ticks).truncated = false) :
    presentedCount (runTicks ticks) tr ≤ 1 := by
  obtain ⟨-, -, hp⟩ := pollerInv_runTicks ticks
  obtain ⟨hnd, -⟩ := hp h
  exact countP_triple_le_one _ hnd tr

theorem c2_dedup_bounded_witness :
    (runTicks [[dupNotif]]).truncated = false ∧
    presentedCount (runTicks [[dupNotif]]) ("error", "T", none) ≤ 1 :=
  ⟨by decide, c2_dedup_bounded [[dupNotif]] ("error", "T", none) (by decide)⟩

/-- C3: the seen-set never exceeds 100 entries — preserved by every single
presentation step and holding in every reachable poller state — and when a
presentation truncates (fresh key inserted into a 100-entry set), the
retained entries are exactly the 50 most recently inserted keys, i.e. the
final 50 entries of the insertion history including the new key. -/
theorem c3_seen_set_bound :
    (∀ (st : PollerState) (n : SystemNotification),
      st.shownNotifications.length ≤ 100 →
      (showNotification st n).shownNotifications.length ≤ 100) ∧
    (∀ ticks, (runTicks ticks).shownNotifications.length ≤ 100) ∧
    (∀ ticks n,
      notificationKey n ∉ (runTicks ticks).shownNotifications →
      (runTicks ticks).shownNotifications.length = 100 →
      (showNotification (runTicks ticks) n).insertionLog =
        (runTicks ticks).insertionLog ++ [notificationKey n] ∧
      (showNotification (runTicks ticks) n).shownNotifications.length = 50 ∧
      (showNotification (runTicks ticks) n).shownNotifications =
        ((runTicks ticks).insertionLog ++ [notificationKey n]).drop
          ((runTicks ticks).insertionLog.length - 49)) := by
  refine ⟨?_, ?_, ?_⟩
  · intro st n hlen
    by_cases hmem : notificationKey n ∈ st.shownNotifications
    · simpa [showNotification, hmem] using hlen
    · by_cases hbig : (st.shownNotifications ++ [notificationKey n]).length > 100
      · simp only [showNotification, hmem, if_false, ite_false, reduceIte, hbig,
          if_true, ite_true]
        simp only [List.length_drop]
        omega
      · simp only [showNotification, hmem, if_false, ite_false, reduceIte, hbig,
          if_true, ite_true]
        simp only [List.length_append, List.length_singleton] at hbig ⊢
        omega
  · intro ticks
    exact (pollerInv_runTicks ticks).1
  · intro ticks n hmem hlen
    obtain ⟨hle, hsuf, -⟩ := pollerInv_runTicks ticks
    have hlog : 100 ≤ (runTicks ticks).insertionLog.length := by
      have := hsuf.length_le
      omega
    have hbig : ((runTicks ticks).shownNotifications ++ [notificationKey n]).length > 100 := by
      simp only [List.length_append, List.length_singleton]
      omega
    have hsuf1 : (runTicks ticks).shownNotifications ++ [notificationKey n] <:+
        (runTicks ticks).insertionLog ++ [notificationKey n] :=
      suffix_append_singleton _ hsuf
    refine ⟨?_, ?_, ?_⟩
    · simp only [showNotification, hmem, if_false, ite_false, reduceIte, hbig,
        if_true, ite_true]
    · simp only [showNotification, hmem, if_false, ite_false, reduceIte, hbig,
        if_true, ite_true]
      simp only [List.length_drop, List.length_append, List.length_singleton]
      omega
    · have hA : (showNotification (runTicks ticks) n).shownNotifications =
          ((runTicks ticks).shownNotifications ++ [notificationKey n]).drop
            (((runTicks ticks).shownNotifications ++ [notificationKey n]).length - 50) := by
        simp only [showNotification, hmem, if_false, ite_false, reduceIte, hbig,
          if_true, ite_true]
      rw [hA]
      apply eq_of_suffix_of_suffix_of_length ((List.drop_suffix _ _).trans hsuf1)
        (List.drop_suffix _ _)
      simp only [List.length_drop, List.length_append, List.length_singleton]
      omega

theorem c3_seen_set_bound_witness :
    notificationKey dupNotif ∉ (runTicks fillTicks).shownNotifications ∧
    (runTicks fillTicks).shownNotifications.length = 100 ∧
    (showNotification (runTicks fillTicks) dupNotif).shownNotifications.length = 50 := by
  have h1 : notificationKey dupNotif ∉ (runTicks fillTicks).shownNotifications := by
    decide
  have h2 : (runTicks fillTicks).shownNotifications.length = 100 := by decide
  exact ⟨h1, h2, (c3_seen_set_bound.2.2 fillTicks dupNotif h1 h2).2.1⟩

end AutoJob
